import Mathlib

/-!
Verification of the ccommon networking runtime (cc_nio.c, cc_stream.c,
event/cc_epoll.c, cc_option.c) against its natural-language specification.

The C sources are shallowly embedded: each C function becomes a Lean
function over explicit state.  System calls (read/write/readv/writev,
epoll_wait) are modelled by an oracle: a list of outcomes consumed in
order; a function returns none when the oracle is exhausted before the
C loop would have finished.  Handler callbacks (pre_read, post_read,
pre_write, post_write) are recorded in an invocation trace; their own
side effects are outside the model.  Machine integers are modelled as
Nat / Int (byte counts are non-negative and no claim involves counter
wrap-around).
-/

namespace CCommon

/-! ### Status codes (cc_func.h; CC_EEMPTY/CC_ERETRY/CC_ERDHUP modelled
from the spec, section 6, as their defining header is not in the sources) -/

def CC_OK : Int := 0
def CC_ERROR : Int := -1
def CC_EAGAIN : Int := -2
def CC_ENOMEM : Int := -3
def CC_EEMPTY : Int := -4
def CC_ERETRY : Int := -5
def CC_ERDHUP : Int := -6

/-! ### System-call oracle -/

/-- An errno value attached to a failing syscall.  The named constructors
are the ones cc_nio.c / cc_epoll.c branch on; every other errno is
`other code`. -/
inductive Errno where
  | eintr
  | eagain
  | ewouldblock
  | other (code : Nat)
deriving DecidableEq, Repr

/-- Numeric errno code, used where the C code stores errno into a field. -/
def errnoCode : Errno → Nat
  | Errno.eintr => 4
  | Errno.eagain => 11
  | Errno.ewouldblock => 11
  | Errno.other code => code

/-- Outcome of one read/write (or readv/writev) syscall: `ok k` means the
call returned k (k = 0 is end-of-file for reads), `err e` means it
returned -1 with errno e. -/
inductive SysRes where
  | ok (k : Nat)
  | err (e : Errno)
deriving DecidableEq, Repr

/-! ### Connection (struct conn, cc_nio.h) -/

/-- Connection states from cc_nio.h: CONN_CONNECT, CONN_CONNECTED,
CONN_EOF, CONN_CLOSE. -/
inductive ConnState where
  | connect
  | connected
  | eof
  | close
deriving DecidableEq, Repr

/-- struct conn (cc_nio.h), restricted to the fields the I/O paths read
or write. -/
structure Conn where
  sd : Int
  recv_nbyte : Nat
  send_nbyte : Nat
  recv_ready : Bool
  send_ready : Bool
  state : ConnState
  err : Nat
deriving DecidableEq, Repr

/-- conn_recv (cc_nio.c).  Consumes syscall outcomes from the oracle;
EINTR retries consume further outcomes.  Returns the C return value
(k, 0, CC_EAGAIN or CC_ERROR), the updated connection and the rest of
the oracle. -/
def conn_recv (conn : Conn) (nbyte : Nat) :
    List SysRes → Option (Int × Conn × List SysRes)
  | [] => none
  | SysRes.ok k :: rest =>
    if 0 < k then
      some ((k : Int),
        { conn with
            recv_ready := if k < nbyte then false else conn.recv_ready,
            recv_nbyte := conn.recv_nbyte + k }, rest)
    else
      some (0, { conn with recv_ready := false, state := ConnState.eof }, rest)
  | SysRes.err e :: rest =>
    match e with
    | Errno.eintr => conn_recv conn nbyte rest
    | Errno.eagain => some (CC_EAGAIN, { conn with recv_ready := false }, rest)
    | Errno.ewouldblock => some (CC_EAGAIN, { conn with recv_ready := false }, rest)
    | Errno.other code =>
      some (CC_ERROR, { conn with recv_ready := false, err := code }, rest)

/-- conn_recvv (cc_nio.c): vector variant; on a 0-byte readv it clears
recv_ready and returns 0 but, unlike conn_recv, does not set the state
to CONN_EOF. -/
def conn_recvv (conn : Conn) (nbyte : Nat) :
    List SysRes → Option (Int × Conn × List SysRes)
  | [] => none
  | SysRes.ok k :: rest =>
    if 0 < k then
      some ((k : Int),
        { conn with
            recv_ready := if k < nbyte then false else conn.recv_ready,
            recv_nbyte := conn.recv_nbyte + k }, rest)
    else
      some (0, { conn with recv_ready := false }, rest)
  | SysRes.err e :: rest =>
    match e with
    | Errno.eintr => conn_recvv conn nbyte rest
    | Errno.eagain => some (CC_EAGAIN, { conn with recv_ready := false }, rest)
    | Errno.ewouldblock => some (CC_EAGAIN, { conn with recv_ready := false }, rest)
    | Errno.other code =>
      some (CC_ERROR, { conn with recv_ready := false, err := code }, rest)

/-- conn_send (cc_nio.c). -/
def conn_send (conn : Conn) (nbyte : Nat) :
    List SysRes → Option (Int × Conn × List SysRes)
  | [] => none
  | SysRes.ok k :: rest =>
    if 0 < k then
      some ((k : Int),
        { conn with
            send_ready := if k < nbyte then false else conn.send_ready,
            send_nbyte := conn.send_nbyte + k }, rest)
    else
      some (0, { conn with send_ready := false }, rest)
  | SysRes.err e :: rest =>
    match e with
    | Errno.eintr => conn_send conn nbyte rest
    | Errno.eagain => some (CC_EAGAIN, { conn with send_ready := false }, rest)
    | Errno.ewouldblock => some (CC_EAGAIN, { conn with send_ready := false }, rest)
    | Errno.other code =>
      some (CC_ERROR, { conn with send_ready := false, err := code }, rest)

/-- conn_sendv (cc_nio.c): vector variant of conn_send. -/
def conn_sendv (conn : Conn) (nbyte : Nat) :
    List SysRes → Option (Int × Conn × List SysRes)
  | [] => none
  | SysRes.ok k :: rest =>
    if 0 < k then
      some ((k : Int),
        { conn with
            send_ready := if k < nbyte then false else conn.send_ready,
            send_nbyte := conn.send_nbyte + k }, rest)
    else
      some (0, { conn with send_ready := false }, rest)
  | SysRes.err e :: rest =>
    match e with
    | Errno.eintr => conn_sendv conn nbyte rest
    | Errno.eagain => some (CC_EAGAIN, { conn with send_ready := false }, rest)
    | Errno.ewouldblock => some (CC_EAGAIN, { conn with send_ready := false }, rest)
    | Errno.other code =>
      some (CC_ERROR, { conn with send_ready := false, err := code }, rest)

/-! ### Stream (cc_stream.h / cc_stream.c) -/

/-- Modelled from the spec: the mbuf module is external to the sources;
per the spec glossary an mbuf is a contiguous buffer with cursors, with
readable_size = wpos - rpos and writable_size = capacity - wpos. -/
structure Mbuf where
  rpos : Nat
  wpos : Nat
  cap : Nat
deriving DecidableEq, Repr

/-- Modelled from the spec: mbuf_wsize (writable size) = capacity - wpos. -/
def mbuf_wsize (m : Mbuf) : Nat := m.cap - m.wpos

/-- Modelled from the spec: mbuf_rsize (readable size) = wpos - rpos. -/
def mbuf_rsize (m : Mbuf) : Nat := m.wpos - m.rpos

/-- channel_type_t (cc_stream.h). -/
inductive ChannelType where
  | unknown
  | tcp
  | tcplisten
deriving DecidableEq, Repr

/-- stream_handler_t (cc_stream.h), keeping only whether each data hook
is present (a null pointer in C means absent). -/
structure StreamHandler where
  pre_read : Bool
  post_read : Bool
  pre_write : Bool
  post_write : Bool
deriving DecidableEq, Repr

/-- struct stream (cc_stream.h), restricted to the fields stream_read /
stream_write use. -/
structure Stream where
  type : ChannelType
  channel : Conn
  rbuf : Mbuf
  wbuf : Mbuf
  handler : StreamHandler
deriving DecidableEq, Repr

/-- A recorded handler-callback invocation (argument = the nbyte passed). -/
inductive HookCall where
  | preRead (n : Nat)
  | postRead (n : Nat)
  | preWrite (n : Nat)
  | postWrite (n : Nat)
deriving DecidableEq, Repr

/-- stream_read (cc_stream.c).  Returns the rstatus_t, the updated
stream, the remaining oracle and the trace of handler invocations.
The unreachable non-TCP branch follows the release-build behaviour
(NOT_REACHED is a no-op, status = CC_ERROR, no bytes received). -/
def stream_read (s : Stream) (nbyte : Nat) (io : List SysRes) :
    Option (Int × Stream × List SysRes × List HookCall) :=
  let t0 := if s.handler.pre_read then [HookCall.preRead nbyte] else []
  let capacity := mbuf_wsize s.rbuf
  if capacity < nbyte then
    some (CC_ENOMEM, s, io, t0)
  else
    match s.type with
    | ChannelType.tcp =>
      match conn_recv s.channel nbyte io with
      | none => none
      | some (n, c1, rest) =>
        let status :=
          if n < 0 then
            if n = CC_EAGAIN then CC_OK else CC_ERROR
          else if n = 0 then CC_ERDHUP
          else if n = (nbyte : Int) then CC_ERETRY
          else CC_OK
        let s1 := { s with
          channel := c1,
          rbuf := { s.rbuf with
            wpos := s.rbuf.wpos + (if 0 < n then n.toNat else 0) } }
        let t1 := t0 ++
          (if 0 < n ∧ s.handler.post_read then [HookCall.postRead n.toNat] else [])
        some (status, s1, rest, t1)
    | _ => some (CC_ERROR, s, io, t0)

/-- stream_write (cc_stream.c).  Note the length passed to conn_send is
content = mbuf_rsize wbuf, not the caller's nbyte, and that the EAGAIN
and error branches return before the rpos update. -/
def stream_write (s : Stream) (nbyte : Nat) (io : List SysRes) :
    Option (Int × Stream × List SysRes × List HookCall) :=
  let t0 := if s.handler.pre_write then [HookCall.preWrite nbyte] else []
  let content := mbuf_rsize s.wbuf
  if content = 0 then
    some (CC_EEMPTY, s, io, t0)
  else
    match s.type with
    | ChannelType.tcp =>
      match conn_send s.channel content io with
      | none => none
      | some (n, c1, rest) =>
        if n < 0 then
          if n = CC_EAGAIN then
            some (CC_EAGAIN, { s with channel := c1 }, rest, t0)
          else
            some (CC_ERROR, { s with channel := c1 }, rest, t0)
        else
          let status := if n < (content : Int) then CC_ERETRY else CC_OK
          let s1 := { s with
            channel := c1,
            wbuf := { s.wbuf with
              rpos := s.wbuf.rpos + (if 0 < n then n.toNat else 0) } }
          let t1 := t0 ++
            (if 0 < n ∧ s.handler.post_write then [HookCall.postWrite n.toNat] else [])
          some (status, s1, rest, t1)
    | _ => some (CC_ERROR, s, io, t0)

/-! ### Event loop (event/cc_epoll.c) -/

def EPOLLIN : Nat := 0x001
def EPOLLOUT : Nat := 0x004
def EPOLLERR : Nat := 0x008
def EPOLLHUP : Nat := 0x010
def EPOLLRDHUP : Nat := 0x2000

def EVENT_READ : Nat := 0x0000ff
def EVENT_WRITE : Nat := 0x00ff00
def EVENT_ERR : Nat := 0xff0000

/-- The mask translation performed for each readiness record inside
event_wait (cc_epoll.c, the events |= ... cascade). -/
def event_translate (p : Nat) : Nat :=
  let e0 : Nat := 0
  let e1 := if p &&& (EPOLLERR ||| EPOLLHUP) ≠ 0 then e0 ||| EVENT_ERR else e0
  let e2 := if p &&& (EPOLLIN ||| EPOLLRDHUP) ≠ 0 then e1 ||| EVENT_READ else e1
  let e3 := if p &&& EPOLLOUT ≠ 0 then e2 ||| EVENT_WRITE else e2
  e3

/-- Outcome of one epoll_wait call: `ret evs` is a return value of
evs.length ≥ 0 with the platform event masks of the ready descriptors;
`fail e` is a -1 return with errno e. -/
inductive EpollOutcome where
  | ret (evs : List Nat)
  | fail (e : Errno)
deriving DecidableEq, Repr

/-- event_wait (cc_epoll.c).  Returns the C return value together with
the list of dispatched callback invocations, each recorded as
(platform mask, translated abstract mask); the opaque user-data pointer
is not modelled.  none when the oracle is exhausted (the EINTR retry
loop did not finish). -/
def event_wait (timeout : Int) : List EpollOutcome → Option (Int × List (Nat × Nat))
  | [] => none
  | EpollOutcome.ret evs :: _ =>
    if 0 < evs.length then
      some ((evs.length : Int), evs.map (fun p => (p, event_translate p)))
    else if timeout = -1 then
      some (-1, [])
    else
      some (0, [])
  | EpollOutcome.fail e :: rest =>
    if e = Errno.eintr then
      event_wait timeout rest
    else
      some (-1, [])

/-! ### Option module (cc_option.c)

Lines and values are modelled as List Char (the C strings without their
terminating NUL); reading one past the end of the line, as the C loops
do on the terminator, is modelled by List.getD with a NUL default.
The three length limits come from the spec, section 6, as cc_option.h
is not in the sources. -/

def OPTNAME_MAXLEN : Nat := 31
def OPTVAL_MAXLEN : Nat := 255
def OPTLINE_MAXLEN : Nat := 1023

/-- C isspace in the default locale. -/
def cIsSpace (c : Char) : Bool :=
  c == ' ' || c == '\t' || c == '\n' || c == '\x0b' || c == '\x0c' || c == '\r'

/-- _allowed_in_name (cc_option.c). -/
def _allowed_in_name (c : Char) : Bool :=
  decide (('a' ≤ c ∧ c ≤ 'z') ∨ c = '_' ∨ ('A' ≤ c ∧ c ≤ 'Z') ∨ ('0' ≤ c ∧ c ≤ '9'))

/-- The name-scanning loop of option_parse: advance p over the remaining
characters while line[p] is not a colon, p < llen (remaining nonempty)
and p ≤ OPTNAME_MAXLEN; fail (none) on a character not allowed in a
name; otherwise return the position where the loop stopped. -/
def scan_name : List Char → Nat → Option Nat
  | [], p => some p
  | c :: rest, p =>
    if c = ':' then some p
    else if p ≤ OPTNAME_MAXLEN then
      if _allowed_in_name c then scan_name rest (p + 1) else none
    else some p

/-- The left-trim loop of option_parse: advance p while isspace(line[p])
and p < q.  The counter is q - p, the exact number of iterations the C
loop can still make, so the recursion is structural. -/
def ltrim_cnt (line : List Char) : Nat → Nat → Nat
  | p, 0 => p
  | p, Nat.succ m =>
    if cIsSpace (line.getD p (Char.ofNat 0)) then ltrim_cnt line (p + 1) m else p

/-- The right-trim loop of option_parse: decrement q while
isspace(line[q]) and q ≥ p.  The counter is q - p + 1, the number of
iterations the C loop can still make. -/
def rtrim_cnt (line : List Char) : Int → Nat → Int
  | q, 0 => q
  | q, Nat.succ m =>
    if cIsSpace (line.getD q.toNat (Char.ofNat 0)) then rtrim_cnt line (q - 1) m else q

/-- Result of option_parse: the three rstatus_t values it can return,
with the parsed name and value attached to the CC_OK case. -/
inductive OptParseOut where
  | empty
  | err
  | ok (name : List Char) (val : List Char)
deriving DecidableEq, Repr

/-- The part of option_parse after the empty/comment check: length
limit, name scan, name checks, value trim and bounds. -/
def option_parse_body (line : List Char) : OptParseOut :=
  let llen := line.length
  if llen > OPTLINE_MAXLEN then OptParseOut.err
  else
    match scan_name line 0 with
    | none => OptParseOut.err
    | some p =>
      if p = llen then OptParseOut.err
      else if p > OPTNAME_MAXLEN then OptParseOut.err
      else
        let p1 := ltrim_cnt line (p + 1) ((llen - 1) - (p + 1))
        let q := rtrim_cnt line ((llen : Int) - 1) (((llen : Int) - 1 - (p1 : Int)) + 1).toNat
        if (p1 : Int) > q then OptParseOut.err
        else
          let vlen := (q - (p1 : Int) + 1).toNat
          if vlen > OPTVAL_MAXLEN then OptParseOut.err
          else OptParseOut.ok (line.take p) ((line.drop p1).take vlen)

/-- option_parse (cc_option.c): the empty/comment early return, then
the parse proper. -/
def option_parse (line : List Char) : OptParseOut :=
  if line.length = 0 ∨ cIsSpace (line.getD 0 (Char.ofNat 0)) ∨ line.getD 0 (Char.ofNat 0) = '#' then
    OptParseOut.empty
  else option_parse_body line

/-! ### strtoumax and option_set (cc_option.c) -/

def UINTMAX_MAX : Nat := 2 ^ 64 - 1

/-- Value of a character as a digit, 99 when it is no digit at all. -/
def digitVal (c : Char) : Nat :=
  if '0' ≤ c ∧ c ≤ '9' then c.toNat - '0'.toNat
  else if 'a' ≤ c ∧ c ≤ 'f' then 10 + (c.toNat - 'a'.toNat)
  else if 'A' ≤ c ∧ c ≤ 'F' then 10 + (c.toNat - 'A'.toNat)
  else 99

/-- Result of strtoumax: the returned value, the offset of endptr from
the start of the string, and whether the conversion overflowed
(errno = ERANGE). -/
structure StrtoumaxResult where
  val : Nat
  endpos : Nat
  erange : Bool
deriving DecidableEq, Repr

/-- C strtoumax with base 0 (as called by _option_parse_uint): skip
whitespace, optional sign, auto-detect base 8/10/16, consume the
longest run of digits.  If there is no digit the subject is empty and
endptr = nptr.  On overflow the value saturates at UINTMAX_MAX with
ERANGE; a minus sign negates the value modulo 2^64. -/
def strtoumax (s : List Char) : StrtoumaxResult :=
  let ws := (s.takeWhile cIsSpace).length
  let rest1 := s.drop ws
  let sign : Bool × Nat :=
    match rest1 with
    | c :: _ => if c = '-' then (true, 1) else if c = '+' then (false, 1) else (false, 0)
    | [] => (false, 0)
  let rest2 := rest1.drop sign.2
  let basePre : Nat × Nat :=
    match rest2 with
    | c0 :: c1 :: c2 :: _ =>
      if c0 = '0' ∧ (c1 = 'x' ∨ c1 = 'X') ∧ digitVal c2 < 16 then (16, 2)
      else if c0 = '0' then (8, 0) else (10, 0)
    | c0 :: _ => if c0 = '0' then (8, 0) else (10, 0)
    | [] => (10, 0)
  let rest3 := rest2.drop basePre.2
  let digits := rest3.takeWhile (fun c => digitVal c < basePre.1)
  if digits.length = 0 then
    { val := 0, endpos := 0, erange := false }
  else
    let raw := digits.foldl (fun acc c => acc * basePre.1 + digitVal c) 0
    let ov := UINTMAX_MAX < raw
    let clamped := if ov then UINTMAX_MAX else raw
    let signed := if sign.1 ∧ ¬ov then (2 ^ 64 - clamped) % 2 ^ 64 else clamped
    { val := signed, endpos := ws + sign.2 + basePre.2 + digits.length, erange := ov }

/-- option_type_t (cc_option.h, via its use in cc_option.c). -/
inductive OptionType where
  | obool
  | ouint
  | ostr
deriving DecidableEq, Repr

/-- The value union of struct option. -/
inductive OptionVal where
  | vbool (b : Bool)
  | vuint (n : Nat)
  | vstr (s : List Char)
deriving DecidableEq, Repr

/-- struct option, restricted to the fields option_set touches. -/
structure COption where
  otype : OptionType
  set : Bool
  val : OptionVal
deriving DecidableEq, Repr

/-- _option_parse_bool (cc_option.c). -/
def _option_parse_bool (opt : COption) (val_str : List Char) : Int × COption :=
  if val_str.length = 3 ∧ val_str = ['y', 'e', 's'] then
    (CC_OK, { opt with set := true, val := OptionVal.vbool true })
  else if val_str.length = 2 ∧ val_str = ['n', 'o'] then
    (CC_OK, { opt with set := true, val := OptionVal.vbool false })
  else (CC_ERROR, opt)

/-- _option_parse_uint (cc_option.c): reject when strtoumax yields
exactly UINTMAX_MAX (the overflow sentinel, even for a legal
representation of that number), or when the string was not fully
consumed. -/
def _option_parse_uint (opt : COption) (val_str : List Char) : Int × COption :=
  let r := strtoumax val_str
  if r.val = UINTMAX_MAX then (CC_ERROR, opt)
  else if r.endpos < val_str.length then (CC_ERROR, opt)
  else (CC_OK, { opt with set := true, val := OptionVal.vuint r.val })

/-- _option_parse_str (cc_option.c); the value pointer is non-null in
this model, so set is always marked. -/
def _option_parse_str (opt : COption) (val_str : List Char) : COption :=
  { opt with set := true, val := OptionVal.vstr val_str }

/-- option_set (cc_option.c). -/
def option_set (opt : COption) (val_str : List Char) : Int × COption :=
  match opt.otype with
  | OptionType.obool => _option_parse_bool opt val_str
  | OptionType.ouint => _option_parse_uint opt val_str
  | OptionType.ostr => (CC_OK, _option_parse_str opt val_str)

/-! ### Concrete example values used by witnesses and counterexamples -/

/-- A live connected connection with both readiness flags set. -/
def cEx : Conn :=
  { sd := 3, recv_nbyte := 0, send_nbyte := 0, recv_ready := true,
    send_ready := true, state := ConnState.connected, err := 0 }

/-- A connection already in the EOF state, with recv_ready re-set. -/
def cEofEx : Conn := { cEx with sd := 7, state := ConnState.eof }

/-- A TCP stream over cEx with all four hooks present, room for 64
bytes in rbuf and 3 readable bytes in wbuf. -/
def sEx : Stream :=
  { type := ChannelType.tcp, channel := cEx,
    rbuf := { rpos := 0, wpos := 0, cap := 64 },
    wbuf := { rpos := 0, wpos := 3, cap := 64 },
    handler := { pre_read := true, post_read := true,
                 pre_write := true, post_write := true } }

/-- sEx over the EOF connection. -/
def sEofEx : Stream := { sEx with channel := cEofEx }

/-- A uint-typed option before any value is applied. -/
def uintOptEx : COption :=
  { otype := OptionType.ouint, set := false, val := OptionVal.vuint 0 }

/-- The exact decimal representation of UINTMAX_MAX. -/
def umaxDecStr : List Char := "18446744073709551615".toList

/-! ## Theorems -/

/-- Bit masks: testing a word against an or of two masks succeeds iff it
tests against one of them. -/
theorem land_lor_ne_zero (p a b : Nat) :
    p &&& (a ||| b) ≠ 0 ↔ (p &&& a ≠ 0 ∨ p &&& b ≠ 0) := by
  have hdist : p &&& (a ||| b) = (p &&& a) ||| (p &&& b) :=
    Nat.and_or_distrib_left ..
  have hzero : ∀ x y : Nat, (x ||| y : Nat) = 0 ↔ x = 0 ∧ y = 0 := by
    intro x y
    constructor
    · intro h
      refine ⟨Nat.eq_of_testBit_eq (fun i => ?_), Nat.eq_of_testBit_eq (fun i => ?_)⟩ <;>
      · have hb : ((x ||| y : Nat)).testBit i = false := by
          rw [h]
          simp
        simp [Nat.testBit_or] at hb
        simp [hb]
    · rintro ⟨rfl, rfl⟩
      simp
  rw [hdist]
  constructor
  · intro h
    by_contra hc
    push_neg at hc
    rw [hc.1, hc.2] at h
    simp at h
  · intro h hz
    rw [hzero] at hz
    rcases h with h | h
    · exact h hz.1
    · exact h hz.2

/-- C3: readiness bookkeeping of conn_recv / conn_send.  With the
readiness flag set on entry, a short transfer (0 < k < n) or an
EAGAIN/EWOULDBLOCK failure clears the flag, while a full transfer
(k = n) leaves it set; symmetrically for send. -/
theorem conn_readiness_bookkeeping (c : Conn) (n k : Nat) (rest : List SysRes)
    (hr : c.recv_ready = true) (hs : c.send_ready = true) :
    (0 < k → k < n →
      (conn_recv c n (SysRes.ok k :: rest)).map (fun r => r.2.1.recv_ready) = some false) ∧
    (0 < k → k = n →
      (conn_recv c n (SysRes.ok k :: rest)).map (fun r => r.2.1.recv_ready) = some true) ∧
    ((conn_recv c n (SysRes.err Errno.eagain :: rest)).map
        (fun r => r.2.1.recv_ready) = some false) ∧
    ((conn_recv c n (SysRes.err Errno.ewouldblock :: rest)).map
        (fun r => r.2.1.recv_ready) = some false) ∧
    (0 < k → k < n →
      (conn_send c n (SysRes.ok k :: rest)).map (fun r => r.2.1.send_ready) = some false) ∧
    (0 < k → k = n →
      (conn_send c n (SysRes.ok k :: rest)).map (fun r => r.2.1.send_ready) = some true) ∧
    ((conn_send c n (SysRes.err Errno.eagain :: rest)).map
        (fun r => r.2.1.send_ready) = some false) ∧
    ((conn_send c n (SysRes.err Errno.ewouldblock :: rest)).map
        (fun r => r.2.1.send_ready) = some false) := by
  refine ⟨?_, ?_, ?_, ?_, ?_, ?_, ?_, ?_⟩
  · intro hk hkn
    simp [conn_recv, hk, hkn]
  · intro hk hkn
    subst hkn
    simp [conn_recv, hk, hr]
  · simp [conn_recv]
  · simp [conn_recv]
  · intro hk hkn
    simp [conn_send, hk, hkn]
  · intro hk hkn
    subst hkn
    simp [conn_send, hk, hs]
  · simp [conn_send]
  · simp [conn_send]

/-- Witness for C3 at k = 2 and k = 4, n = 4, on the concrete connection
cEx. -/
theorem conn_readiness_bookkeeping_witness :
    ((conn_recv cEx 4 [SysRes.ok 2]).map (fun r => r.2.1.recv_ready) = some false) ∧
    ((conn_recv cEx 4 [SysRes.ok 4]).map (fun r => r.2.1.recv_ready) = some true) ∧
    ((conn_recv cEx 4 [SysRes.err Errno.eagain]).map (fun r => r.2.1.recv_ready) = some false) ∧
    ((conn_send cEx 4 [SysRes.ok 2]).map (fun r => r.2.1.send_ready) = some false) ∧
    ((conn_send cEx 4 [SysRes.ok 4]).map (fun r => r.2.1.send_ready) = some true) ∧
    ((conn_send cEx 4 [SysRes.err Errno.ewouldblock]).map (fun r => r.2.1.send_ready) = some false) :=
  ⟨(conn_readiness_bookkeeping cEx 4 2 [] rfl rfl).1 (by decide) (by decide),
   (conn_readiness_bookkeeping cEx 4 4 [] rfl rfl).2.1 (by decide) rfl,
   (conn_readiness_bookkeeping cEx 4 0 [] rfl rfl).2.2.1,
   (conn_readiness_bookkeeping cEx 4 2 [] rfl rfl).2.2.2.2.1 (by decide) (by decide),
   (conn_readiness_bookkeeping cEx 4 4 [] rfl rfl).2.2.2.2.2.1 (by decide) rfl,
   (conn_readiness_bookkeeping cEx 4 0 [] rfl rfl).2.2.2.2.2.2.2⟩

/-- C1 counterexample: conn_recv does not consult the EOF state.  On a
connection whose state is EOF (and recv_ready set, as conn_recv's
precondition demands), conn_recv cannot return without consuming a
syscall outcome (it touches the socket), and when the read yields 5
bytes it returns 5, not 0. -/
theorem conn_eof_recv_counterexample :
    cEofEx.state = ConnState.eof ∧ cEofEx.recv_ready = true ∧
    conn_recv cEofEx 10 [] = none ∧
    (conn_recv cEofEx 10 [SysRes.ok 5]).map (fun r => r.1) = some 5 := by
  decide

/-- C1 (amended): a read returning 0 makes tcp_recv set state = EOF,
clear recv_ready and return 0; conn_recv issues the read regardless of
the current state, and when the read on an EOF connection again
returns 0 the recv returns 0 and a stream_read over that connection
returns ERDHUP. -/
theorem conn_eof_semantics :
    (∀ (c : Conn) (n : Nat) (rest : List SysRes), c.recv_ready = true →
      conn_recv c n (SysRes.ok 0 :: rest) =
        some (0, { c with recv_ready := false, state := ConnState.eof }, rest)) ∧
    (∀ (c : Conn) (n : Nat) (rest : List SysRes), c.state = ConnState.eof →
      (conn_recv c n (SysRes.ok 0 :: rest)).map (fun r => (r.1, r.2.1.state)) =
        some (0, ConnState.eof)) ∧
    (∀ (s : Stream) (n : Nat) (rest : List SysRes), s.type = ChannelType.tcp →
      s.channel.state = ConnState.eof → n ≤ mbuf_wsize s.rbuf →
      (stream_read s n (SysRes.ok 0 :: rest)).map (fun r => r.1) = some CC_ERDHUP) := by
  refine ⟨?_, ?_, ?_⟩
  · intro c n rest _
    simp [conn_recv]
  · intro c n rest _
    simp [conn_recv]
  · intro s n rest ht _ hcap
    simp [stream_read, ht, Nat.not_lt.mpr hcap, conn_recv, CC_EAGAIN, CC_ERROR, CC_ERDHUP]

/-- Witness for C1 (amended) on the concrete EOF connection and stream. -/
theorem conn_eof_semantics_witness :
    (conn_recv cEx 8 [SysRes.ok 0] =
      some (0, { cEx with recv_ready := false, state := ConnState.eof }, [])) ∧
    ((conn_recv cEofEx 8 [SysRes.ok 0]).map (fun r => (r.1, r.2.1.state)) =
      some (0, ConnState.eof)) ∧
    ((stream_read sEofEx 8 [SysRes.ok 0]).map (fun r => r.1) = some CC_ERDHUP) :=
  ⟨conn_eof_semantics.1 cEx 8 [] rfl,
   conn_eof_semantics.2.1 cEofEx 8 [] rfl,
   conn_eof_semantics.2.2 sEofEx 8 [] rfl rfl (by decide)⟩

/-- C2 counterexample: on a 0-byte read the scalar conn_recv moves the
connection to state EOF while the vector conn_recvv leaves the state
unchanged, even though both return status 0. -/
theorem vector_scalar_counterexample :
    (conn_recv cEx 4 [SysRes.ok 0]).map (fun r => r.1) = some 0 ∧
    (conn_recvv cEx 4 [SysRes.ok 0]).map (fun r => r.1) = some 0 ∧
    (conn_recv cEx 4 [SysRes.ok 0]).map (fun r => r.2.1.state) = some ConnState.eof ∧
    (conn_recvv cEx 4 [SysRes.ok 0]).map (fun r => r.2.1.state) = some ConnState.connected := by
  decide

/-- C2 (amended): conn_sendv performs exactly the same status returns
and state updates as conn_send on every syscall outcome; conn_recvv
agrees with conn_recv on status, remaining oracle and every connection
field except that on a 0-byte read it does not move the state to EOF
(its state is always left unchanged). -/
theorem vector_scalar_equivalence :
    (∀ (c : Conn) (n : Nat) (io : List SysRes),
      conn_sendv c n io = conn_send c n io) ∧
    (∀ (c : Conn) (n : Nat) (io : List SysRes),
      conn_recvv c n io =
        (conn_recv c n io).map (fun r => (r.1, { r.2.1 with state := c.state }, r.2.2))) := by
  constructor
  · intro c n io
    induction io with
    | nil => rfl
    | cons x rest ih =>
      cases x with
      | ok k => rfl
      | err e =>
        cases e with
        | eintr => simpa [conn_sendv, conn_send] using ih
        | eagain => rfl
        | ewouldblock => rfl
        | other code => rfl
  · intro c n io
    induction io with
    | nil => rfl
    | cons x rest ih =>
      cases x with
      | ok k =>
        by_cases hk : 0 < k
        · simp [conn_recvv, conn_recv, hk]
        · simp [conn_recvv, conn_recv, hk]
      | err e =>
        cases e with
        | eintr => simpa [conn_recvv, conn_recv] using ih
        | eagain => simp [conn_recvv, conn_recv]
        | ewouldblock => simp [conn_recvv, conn_recv]
        | other code => simp [conn_recvv, conn_recv]

/-- C4: stream_read on a TCP stream returns ENOMEM without calling the
channel recv when rbuf's writable size is below n; otherwise, with k
the conn_recv result, it maps the sentinels EAGAIN → OK and ERROR →
ERROR, k = 0 → ERDHUP, k = n → ERETRY, 0 < k < n → OK, advances
rbuf.wpos by exactly k when k > 0 and then invokes post_read(s, k)
when that hook is present (the cases apply in the listed order, so
ERDHUP wins at k = n = 0). -/
theorem stream_read_status (s : Stream) (n : Nat) (io : List SysRes)
    (ht : s.type = ChannelType.tcp) :
    (mbuf_wsize s.rbuf < n →
      stream_read s n io = some (CC_ENOMEM, s, io,
        if s.handler.pre_read then [HookCall.preRead n] else [])) ∧
    (n ≤ mbuf_wsize s.rbuf →
      ∀ (v : Int) (c1 : Conn) (rest : List SysRes),
        conn_recv s.channel n io = some (v, c1, rest) →
        ∃ st s1 tr, stream_read s n io = some (st, s1, rest, tr) ∧
          (v = CC_EAGAIN → st = CC_OK) ∧
          (v = CC_ERROR → st = CC_ERROR) ∧
          (v = 0 → st = CC_ERDHUP) ∧
          (0 < v → v = (n : Int) → st = CC_ERETRY) ∧
          (0 < v → v < (n : Int) → st = CC_OK) ∧
          s1.rbuf.wpos = s.rbuf.wpos + (if 0 < v then v.toNat else 0) ∧
          (0 < v → s.handler.post_read = true → HookCall.postRead v.toNat ∈ tr)) := by
  constructor
  · intro hcap
    simp [stream_read, hcap]
  · intro hcap v c1 rest hcr
    have heval : stream_read s n io =
        some ((if v < 0 then (if v = CC_EAGAIN then CC_OK else CC_ERROR)
               else if v = 0 then CC_ERDHUP
               else if v = (n : Int) then CC_ERETRY else CC_OK),
          { s with channel := c1,
                   rbuf := { s.rbuf with
                     wpos := s.rbuf.wpos + (if 0 < v then v.toNat else 0) } },
          rest,
          (if s.handler.pre_read then [HookCall.preRead n] else []) ++
            (if 0 < v ∧ s.handler.post_read then [HookCall.postRead v.toNat] else [])) := by
      simp [stream_read, Nat.not_lt.mpr hcap, ht, hcr]
    refine ⟨_, _, _, heval, ?_, ?_, ?_, ?_, ?_, ?_, ?_⟩
    · intro hv
      subst hv
      simp [CC_EAGAIN, CC_OK]
    · intro hv
      subst hv
      norm_num [CC_ERROR, CC_EAGAIN]
    · intro hv
      subst hv
      norm_num [CC_ERDHUP]
    · intro hv hvn
      subst hvn
      have h0 : ¬ ((n : Int) < 0) := by omega
      have h1 : (n : Int) ≠ 0 := by omega
      simp [h0, h1]
    · intro hv hvn
      have h0 : ¬ (v < 0) := by omega
      have h1 : v ≠ 0 := by omega
      have h2 : v ≠ (n : Int) := by omega
      simp [h0, h1, h2]
    · simp
    · intro hv hp
      simp [hv, hp]

/-- Witness for C4 on the concrete stream sEx: a 100-byte request
overflows the 64-byte rbuf (ENOMEM), and a 3-of-8-byte read returns OK
advancing wpos by 3 with post_read invoked. -/
theorem stream_read_status_witness :
    (stream_read sEx 100 [SysRes.ok 3] = some (CC_ENOMEM, sEx, [SysRes.ok 3],
      [HookCall.preRead 100])) ∧
    (∃ st s1 tr, stream_read sEx 8 [SysRes.ok 3] = some (st, s1, [], tr) ∧
      ((3 : Int) = CC_EAGAIN → st = CC_OK) ∧
      ((3 : Int) = CC_ERROR → st = CC_ERROR) ∧
      ((3 : Int) = 0 → st = CC_ERDHUP) ∧
      ((0 : Int) < 3 → (3 : Int) = (8 : Nat) → st = CC_ERETRY) ∧
      ((0 : Int) < 3 → (3 : Int) < (8 : Nat) → st = CC_OK) ∧
      s1.rbuf.wpos = sEx.rbuf.wpos + (if (0 : Int) < 3 then (3 : Int).toNat else 0) ∧
      ((0 : Int) < 3 → sEx.handler.post_read = true → HookCall.postRead (3 : Int).toNat ∈ tr)) :=
  ⟨by
    have h := (stream_read_status sEx 100 [SysRes.ok 3] rfl).1 (by decide)
    simpa [sEx] using h,
   (stream_read_status sEx 8 [SysRes.ok 3] rfl).2 (by decide) 3
     { cEx with recv_ready := false, recv_nbyte := 3 } [] (by decide)⟩

/-- C5: stream_write on a TCP stream returns EEMPTY without calling the
channel send when wbuf holds no readable bytes; otherwise it hands the
full readable size (content, not the caller's n) to conn_send, maps
EAGAIN → EAGAIN, ERROR → ERROR, k < content → ERETRY, k = content →
OK, advances wbuf.rpos by max(k, 0) and invokes post_write(s, k) when
present and k > 0. -/
theorem stream_write_status (s : Stream) (n : Nat) (io : List SysRes)
    (ht : s.type = ChannelType.tcp) :
    (mbuf_rsize s.wbuf = 0 →
      stream_write s n io = some (CC_EEMPTY, s, io,
        if s.handler.pre_write then [HookCall.preWrite n] else [])) ∧
    (0 < mbuf_rsize s.wbuf →
      ∀ (v : Int) (c1 : Conn) (rest : List SysRes),
        conn_send s.channel (mbuf_rsize s.wbuf) io = some (v, c1, rest) →
        ∃ st s1 tr, stream_write s n io = some (st, s1, rest, tr) ∧
          (v = CC_EAGAIN → st = CC_EAGAIN) ∧
          (v = CC_ERROR → st = CC_ERROR) ∧
          (0 ≤ v → v < (mbuf_rsize s.wbuf : Int) → st = CC_ERETRY) ∧
          (v = (mbuf_rsize s.wbuf : Int) → st = CC_OK) ∧
          s1.wbuf.rpos = s.wbuf.rpos + (max v 0).toNat ∧
          (0 < v → s.handler.post_write = true → HookCall.postWrite v.toNat ∈ tr)) := by
  constructor
  · intro hempty
    simp [stream_write, hempty]
  · intro hcontent v c1 rest hcs
    have hc0 : mbuf_rsize s.wbuf ≠ 0 := Nat.pos_iff_ne_zero.mp hcontent
    by_cases hv : v < 0
    · by_cases he : v = CC_EAGAIN
      · subst he
        have heval : stream_write s n io =
            some (CC_EAGAIN, { s with channel := c1 }, rest,
              if s.handler.pre_write then [HookCall.preWrite n] else []) := by
          simp [stream_write, hc0, ht, hcs, CC_EAGAIN]
        refine ⟨_, _, _, heval, fun _ => rfl, ?_, ?_, ?_, ?_, ?_⟩
        · intro hrr
          norm_num [CC_EAGAIN, CC_ERROR] at hrr
        · intro h0 _
          omega
        · intro hfull
          exfalso
          omega
        · have hm : (max CC_EAGAIN 0 : Int) = 0 := max_eq_right (by norm_num [CC_EAGAIN])
          simp [hm]
        · intro h0
          norm_num [CC_EAGAIN] at h0
      · have heval : stream_write s n io =
            some (CC_ERROR, { s with channel := c1 }, rest,
              if s.handler.pre_write then [HookCall.preWrite n] else []) := by
          simp [stream_write, hc0, ht, hcs, hv, he]
        refine ⟨_, _, _, heval, ?_, fun _ => rfl, ?_, ?_, ?_, ?_⟩
        · intro hrr
          exact absurd hrr he
        · intro h0 _
          omega
        · intro hfull
          exfalso
          omega
        · have : (max v 0) = 0 := max_eq_right (le_of_lt hv)
          simp [this]
        · intro h0
          omega
    · have hmax : (max v 0).toNat = if 0 < v then v.toNat else 0 := by
        by_cases hp : 0 < v
        · rw [max_eq_left (le_of_lt hp), if_pos hp]
        · have hz : v = 0 := by omega
          simp [hz]
      have heval : stream_write s n io =
          some ((if v < (mbuf_rsize s.wbuf : Int) then CC_ERETRY else CC_OK),
            { s with channel := c1,
                     wbuf := { s.wbuf with
                       rpos := s.wbuf.rpos + (if 0 < v then v.toNat else 0) } },
            rest,
            (if s.handler.pre_write then [HookCall.preWrite n] else []) ++
              (if 0 < v ∧ s.handler.post_write then [HookCall.postWrite v.toNat] else [])) := by
        simp [stream_write, hc0, ht, hcs, hv]
      refine ⟨_, _, _, heval, ?_, ?_, ?_, ?_, ?_, ?_⟩
      · intro hrr
        rw [hrr] at hv
        norm_num [CC_EAGAIN] at hv
      · intro hrr
        rw [hrr] at hv
        norm_num [CC_ERROR] at hv
      · intro _ hlt
        simp [hlt]
      · intro hfull
        have : ¬ (v < (mbuf_rsize s.wbuf : Int)) := by omega
        simp [this]
      · simp [hmax]
      · intro hp hw
        simp [hp, hw]

/-- Witness for C5 on the concrete stream sEx (content = 3): a 2-byte
send returns ERETRY advancing rpos by 2 with post_write invoked. -/
theorem stream_write_status_witness :
    (∃ st s1 tr, stream_write sEx 5 [SysRes.ok 2] = some (st, s1, [], tr) ∧
      ((2 : Int) = CC_EAGAIN → st = CC_EAGAIN) ∧
      ((2 : Int) = CC_ERROR → st = CC_ERROR) ∧
      ((0 : Int) ≤ 2 → (2 : Int) < (mbuf_rsize sEx.wbuf : Int) → st = CC_ERETRY) ∧
      ((2 : Int) = (mbuf_rsize sEx.wbuf : Int) → st = CC_OK) ∧
      s1.wbuf.rpos = sEx.wbuf.rpos + (max (2 : Int) 0).toNat ∧
      ((0 : Int) < 2 → sEx.handler.post_write = true → HookCall.postWrite (2 : Int).toNat ∈ tr)) :=
  (stream_write_status sEx 5 [SysRes.ok 2] rfl).2 (by decide) 2
    { cEx with send_ready := false, send_nbyte := 2 } [] (by decide)

/-- C10: a write reporting 0 bytes makes conn_send clear send_ready and
return 0 with state, err and send_nbyte untouched; stream_write on a
TCP stream with a non-empty wbuf then returns ERETRY, leaves rpos
unchanged and does not invoke post_write. -/
theorem zero_byte_send (c : Conn) (n : Nat) (rest : List SysRes)
    (hs : c.send_ready = true) :
    conn_send c n (SysRes.ok 0 :: rest) = some (0, { c with send_ready := false }, rest) ∧
    (∀ (s : Stream) (m : Nat), s.type = ChannelType.tcp → 0 < mbuf_rsize s.wbuf →
      ∃ s1 tr, stream_write s m (SysRes.ok 0 :: rest) = some (CC_ERETRY, s1, rest, tr) ∧
        s1.wbuf.rpos = s.wbuf.rpos ∧ (∀ k, HookCall.postWrite k ∉ tr)) := by
  constructor
  · simp [conn_send]
  · intro s m ht hcontent
    have hc0 : mbuf_rsize s.wbuf ≠ 0 := Nat.pos_iff_ne_zero.mp hcontent
    have hcast : (0 : Int) < (mbuf_rsize s.wbuf : Int) := by exact_mod_cast hcontent
    have heval : stream_write s m (SysRes.ok 0 :: rest) =
        some (CC_ERETRY,
          { s with channel := { s.channel with send_ready := false },
                   wbuf := { s.wbuf with rpos := s.wbuf.rpos } },
          rest,
          if s.handler.pre_write then [HookCall.preWrite m] else []) := by
      simp [stream_write, hc0, ht, conn_send, hcast, CC_ERETRY]
    refine ⟨_, _, heval, rfl, ?_⟩
    intro k
    by_cases hw : s.handler.pre_write <;> simp [hw]

/-- Witness for C10 on cEx and sEx. -/
theorem zero_byte_send_witness :
    (conn_send cEx 4 [SysRes.ok 0] = some (0, { cEx with send_ready := false }, [])) ∧
    (∃ s1 tr, stream_write sEx 5 [SysRes.ok 0] = some (CC_ERETRY, s1, [], tr) ∧
      s1.wbuf.rpos = sEx.wbuf.rpos ∧ (∀ k, HookCall.postWrite k ∉ tr)) :=
  ⟨(zero_byte_send cEx 4 [] rfl).1,
   (zero_byte_send cEx 4 [] rfl).2 sEx 5 rfl (by decide)⟩

/-- The mask cascade of event_wait written as a sum of the three
disjoint abstract fields. -/
theorem event_translate_cases (p : Nat) :
    event_translate p =
      (if p &&& (EPOLLERR ||| EPOLLHUP) ≠ 0 then EVENT_ERR else 0) +
      (if p &&& (EPOLLIN ||| EPOLLRDHUP) ≠ 0 then EVENT_READ else 0) +
      (if p &&& EPOLLOUT ≠ 0 then EVENT_WRITE else 0) := by
  by_cases h1 : p &&& (EPOLLERR ||| EPOLLHUP) ≠ 0 <;>
  by_cases h2 : p &&& (EPOLLIN ||| EPOLLRDHUP) ≠ 0 <;>
  by_cases h3 : p &&& EPOLLOUT ≠ 0 <;>
  simp [event_translate, h1, h2, h3] <;> decide

/-- Every pair dispatched by event_wait is a platform mask with its
translation. -/
theorem event_wait_dispatch (t : Int) (io : List EpollOutcome) (r : Int)
    (ds : List (Nat × Nat)) (hw : event_wait t io = some (r, ds)) :
    ∀ pm ∈ ds, pm.2 = event_translate pm.1 := by
  induction io with
  | nil => simp [event_wait] at hw
  | cons x rest ih =>
    cases x with
    | ret evs =>
      by_cases hl : 0 < evs.length
      · simp [event_wait, hl] at hw
        rcases hw with ⟨-, hds⟩
        subst hds
        intro pm hpm
        rcases List.mem_map.mp hpm with ⟨p, -, hp⟩
        subst hp
        rfl
      · by_cases htm : t = -1 <;>
        · simp [event_wait, hl, htm] at hw
          rcases hw with ⟨-, hds⟩
          subst hds
          intro pm hpm
          simp at hpm
    | fail e =>
      by_cases he : e = Errno.eintr
      · subst he
        simp [event_wait] at hw
        exact ih hw
      · simp [event_wait, he] at hw
        rcases hw with ⟨-, hds⟩
        subst hds
        intro pm hpm
        simp at hpm

/-- C6: for every readiness record dispatched by event_wait, the
abstract mask has its ERR field set iff the platform reported EPOLLERR
or EPOLLHUP, its READ field iff EPOLLIN or EPOLLRDHUP, its WRITE field
iff EPOLLOUT, and nothing else (the mask is exactly the sum of the
fields so triggered). -/
theorem event_mask_translation (t : Int) (io : List EpollOutcome) (r : Int)
    (ds : List (Nat × Nat)) (hw : event_wait t io = some (r, ds)) :
    ∀ pm ∈ ds,
      (pm.2 &&& EVENT_ERR ≠ 0 ↔ (pm.1 &&& EPOLLERR ≠ 0 ∨ pm.1 &&& EPOLLHUP ≠ 0)) ∧
      (pm.2 &&& EVENT_READ ≠ 0 ↔ (pm.1 &&& EPOLLIN ≠ 0 ∨ pm.1 &&& EPOLLRDHUP ≠ 0)) ∧
      (pm.2 &&& EVENT_WRITE ≠ 0 ↔ pm.1 &&& EPOLLOUT ≠ 0) ∧
      pm.2 = (if pm.1 &&& (EPOLLERR ||| EPOLLHUP) ≠ 0 then EVENT_ERR else 0) +
             (if pm.1 &&& (EPOLLIN ||| EPOLLRDHUP) ≠ 0 then EVENT_READ else 0) +
             (if pm.1 &&& EPOLLOUT ≠ 0 then EVENT_WRITE else 0) := by
  intro pm hpm
  have hx := event_wait_dispatch t io r ds hw pm hpm
  rw [hx, ← land_lor_ne_zero pm.1 EPOLLERR EPOLLHUP,
      ← land_lor_ne_zero pm.1 EPOLLIN EPOLLRDHUP, event_translate_cases]
  by_cases h1 : pm.1 &&& (EPOLLERR ||| EPOLLHUP) ≠ 0 <;>
  by_cases h2 : pm.1 &&& (EPOLLIN ||| EPOLLRDHUP) ≠ 0 <;>
  by_cases h3 : pm.1 &&& EPOLLOUT ≠ 0 <;>
  simp [h1, h2, h3] <;> decide

/-- Witness for C6: an epoll record reporting
EPOLLIN|EPOLLERR|EPOLLHUP|EPOLLRDHUP (0x2019). -/
theorem event_mask_translation_witness :
    ((0xff00ff : Nat) &&& EVENT_ERR ≠ 0 ↔
      ((0x2019 : Nat) &&& EPOLLERR ≠ 0 ∨ (0x2019 : Nat) &&& EPOLLHUP ≠ 0)) ∧
    ((0xff00ff : Nat) &&& EVENT_READ ≠ 0 ↔
      ((0x2019 : Nat) &&& EPOLLIN ≠ 0 ∨ (0x2019 : Nat) &&& EPOLLRDHUP ≠ 0)) ∧
    ((0xff00ff : Nat) &&& EVENT_WRITE ≠ 0 ↔ (0x2019 : Nat) &&& EPOLLOUT ≠ 0) ∧
    (0xff00ff : Nat) =
      (if (0x2019 : Nat) &&& (EPOLLERR ||| EPOLLHUP) ≠ 0 then EVENT_ERR else 0) +
      (if (0x2019 : Nat) &&& (EPOLLIN ||| EPOLLRDHUP) ≠ 0 then EVENT_READ else 0) +
      (if (0x2019 : Nat) &&& EPOLLOUT ≠ 0 then EVENT_WRITE else 0) :=
  event_mask_translation 5 [EpollOutcome.ret [0x2019]] 1 [(0x2019, 0xff00ff)]
    (by decide) (0x2019, 0xff00ff) (by decide)

/-- C7: event_wait returns the number of dispatches when the
multiplexer reports at least one event, 0 when it reports none under a
non-negative timeout, -1 when it reports none under the indefinite
timeout -1, -1 on a non-EINTR multiplexer error, and transparently
retries EINTR. -/
theorem event_wait_semantics :
    (∀ (t : Int) (evs : List Nat) (rest : List EpollOutcome), 0 < evs.length →
      ∃ ds, event_wait t (EpollOutcome.ret evs :: rest) = some ((evs.length : Int), ds) ∧
        ds.length = evs.length) ∧
    (∀ (t : Int) (rest : List EpollOutcome), 0 ≤ t →
      event_wait t (EpollOutcome.ret [] :: rest) = some (0, [])) ∧
    (∀ (rest : List EpollOutcome),
      event_wait (-1) (EpollOutcome.ret [] :: rest) = some (-1, [])) ∧
    (∀ (t : Int) (e : Errno) (rest : List EpollOutcome), e ≠ Errno.eintr →
      event_wait t (EpollOutcome.fail e :: rest) = some (-1, [])) ∧
    (∀ (t : Int) (rest : List EpollOutcome),
      event_wait t (EpollOutcome.fail Errno.eintr :: rest) = event_wait t rest) := by
  refine ⟨?_, ?_, ?_, ?_, ?_⟩
  · intro t evs rest hl
    exact ⟨evs.map (fun p => (p, event_translate p)), by simp [event_wait, hl], by simp⟩
  · intro t rest hnn
    have : t ≠ -1 := by omega
    simp [event_wait, this]
  · intro rest
    simp [event_wait]
  · intro t e rest he
    simp [event_wait, he]
  · intro t rest
    simp [event_wait]

/-- Witness for C7 at concrete timeouts and outcome lists. -/
theorem event_wait_semantics_witness :
    (∃ ds, event_wait 5 [EpollOutcome.ret [1, 4]] = some (2, ds) ∧ ds.length = 2) ∧
    event_wait 0 [EpollOutcome.ret []] = some (0, []) ∧
    event_wait (-1) [EpollOutcome.ret []] = some (-1, []) ∧
    event_wait 5 [EpollOutcome.fail (Errno.other 9)] = some (-1, []) ∧
    event_wait 5 (EpollOutcome.fail Errno.eintr :: [EpollOutcome.ret [1, 4]]) =
      event_wait 5 [EpollOutcome.ret [1, 4]] :=
  ⟨event_wait_semantics.1 5 [1, 4] [] (by decide),
   event_wait_semantics.2.1 0 [] (by decide),
   event_wait_semantics.2.2.1 [],
   event_wait_semantics.2.2.2.1 5 (Errno.other 9) [] (by decide),
   event_wait_semantics.2.2.2.2 5 [EpollOutcome.ret [1, 4]]⟩

/-- The parse proper never reports the empty/comment status: every one
of its branches yields err or ok. -/
theorem option_parse_body_ne_empty (line : List Char) :
    option_parse_body line ≠ OptParseOut.empty := by
  intro h
  simp only [option_parse_body] at h
  repeat' split at h
  all_goals simp at h

/-- C8 counterexample: the line " a:b" (leading blank, then an option
assignment) is not empty, not whitespace-only and does not start with
'#', yet option_parse classifies it as an empty/comment line. -/
theorem option_comment_counterexample :
    option_parse " a:b".toList = OptParseOut.empty ∧
    " a:b".toList ≠ [] ∧
    ¬ (∀ c ∈ " a:b".toList, cIsSpace c = true) ∧
    List.getD " a:b".toList 0 (Char.ofNat 0) ≠ '#' := by
  decide

/-- C8 (amended): option_parse reports the empty/comment status exactly
for the lines that are empty or whose first character is whitespace or
'#'; other lines go through the name ':' value grammar, illustrated on
two concrete option lines with whitespace-trimmed values. -/
theorem option_comment_classification :
    (∀ line : List Char,
      option_parse line = OptParseOut.empty ↔
        line = [] ∨ ∃ c, line.head? = some c ∧ (cIsSpace c = true ∨ c = '#')) ∧
    option_parse "tcp_backlog: 256".toList =
      OptParseOut.ok "tcp_backlog".toList "256".toList ∧
    option_parse "name:  some value  ".toList =
      OptParseOut.ok "name".toList "some value".toList := by
  refine ⟨?_, by decide, by decide⟩
  intro line
  cases line with
  | nil => simp [option_parse]
  | cons c cs =>
    constructor
    · intro h
      by_cases hsp : cIsSpace c = true ∨ c = '#'
      · exact Or.inr ⟨c, rfl, hsp⟩
      · exfalso
        have hcond : ¬ ((c :: cs).length = 0 ∨
            cIsSpace ((c :: cs).getD 0 (Char.ofNat 0)) = true ∨
            (c :: cs).getD 0 (Char.ofNat 0) = '#') := by
          simpa using hsp
        unfold option_parse at h
        rw [if_neg hcond] at h
        exact option_parse_body_ne_empty _ h
    · intro h
      rcases h with h | ⟨d, hd, hor⟩
      · simp at h
      · have hcd : c = d := by
          simpa using hd
        subst hcd
        have hcond : (c :: cs).length = 0 ∨
            cIsSpace ((c :: cs).getD 0 (Char.ofNat 0)) = true ∨
            (c :: cs).getD 0 (Char.ofNat 0) = '#' := by
          refine Or.inr ?_
          simpa using hor
        unfold option_parse
        rw [if_pos hcond]

/-- C9: for a uint-typed option, option_set fails leaving the option
untouched whenever strtoumax yields exactly UINTMAX_MAX — even though
the exact decimal spelling of UINTMAX_MAX is a legal, fully-consumed,
non-overflowing representation — and succeeds, storing the parsed
value, on every fully-consumed string whose value is strictly below
UINTMAX_MAX. -/
theorem option_uint_overflow_sentinel (opt : COption) (s : List Char)
    (ht : opt.otype = OptionType.ouint) :
    ((strtoumax s).val = UINTMAX_MAX → option_set opt s = (CC_ERROR, opt)) ∧
    ((strtoumax s).endpos = s.length → (strtoumax s).val < UINTMAX_MAX →
      option_set opt s =
        (CC_OK, { opt with set := true, val := OptionVal.vuint (strtoumax s).val })) ∧
    ((strtoumax umaxDecStr).val = UINTMAX_MAX ∧
     (strtoumax umaxDecStr).endpos = umaxDecStr.length ∧
     (strtoumax umaxDecStr).erange = false) := by
  refine ⟨?_, ?_, by decide⟩
  · intro hmax
    simp [option_set, ht, _option_parse_uint, hmax]
  · intro hend hlt
    have h1 : (strtoumax s).val ≠ UINTMAX_MAX := Nat.ne_of_lt hlt
    have h2 : ¬ ((strtoumax s).endpos < s.length) := by omega
    simp [option_set, ht, _option_parse_uint, h1, h2]

/-- Witness for C9: the exact decimal spelling of UINTMAX_MAX is
rejected on the concrete uint option, while "42" is accepted and
stored. -/
theorem option_uint_overflow_sentinel_witness :
    option_set uintOptEx umaxDecStr = (CC_ERROR, uintOptEx) ∧
    option_set uintOptEx "42".toList =
      (CC_OK, { uintOptEx with set := true, val := OptionVal.vuint (strtoumax "42".toList).val }) :=
  ⟨(option_uint_overflow_sentinel uintOptEx umaxDecStr rfl).1 (by decide),
   (option_uint_overflow_sentinel uintOptEx "42".toList rfl).2.1 (by decide) (by decide)⟩

end CCommon
